import Mathlib

/-!
Shallow embedding of `assignment-1/plot_benchmarks.py`.

The script reads `benchmark_results.csv`, buckets rows into two Python
dicts (`baselines` keyed by baseline name, `data` keyed by
`(version, baseline)`), sorts each series by thread count, and renders
four PNG charts.  Python dicts are modelled as association lists with
first-match lookup, Python `float` as `ℚ`, Python `int` as `Int`, and
the script's file-system behaviour as an explicit event trace.  A
`KeyError` (`baselines[key]` on a missing key) is modelled as `none` /
an error outcome that truncates the trace.
-/

namespace PlotBenchmarks

/-- One parsed CSV row of `benchmark_results.csv`: the four fields the read
loop extracts (`version`, `int(threads)`, `float(time_seconds)`, `baseline`),
with the float elapsed time modelled as a rational number. -/
structure Row where
  version : String
  threads : Int
  time_seconds : ℚ
  baseline : String
deriving DecidableEq

/-- First-match lookup in an association list: Python dict read `d[k]`
(`none` models a `KeyError`). -/
def lookupA {α β : Type} [DecidableEq α] : List (α × β) → α → Option β
  | [], _ => none
  | (k, v) :: rest, k' => if k = k' then some v else lookupA rest k'

/-- Python dict assignment `d[k] = v`: replace the value at an existing key,
otherwise add the binding at the end. -/
def insertA {α β : Type} [DecidableEq α] : List (α × β) → α → β → List (α × β)
  | [], k, v => [(k, v)]
  | (k', v') :: rest, k, v =>
      if k' = k then (k, v) :: rest else (k', v') :: insertA rest k v

/-- Python `d.setdefault(k, []).append(x)`: append `x` to the list stored at
`k`, creating the binding with `[x]` when `k` is absent. -/
def appendTo {α β : Type} [DecidableEq α] : List (α × List β) → α → β → List (α × List β)
  | [], k, x => [(k, [x])]
  | (k', xs) :: rest, k, x =>
      if k' = k then (k', xs ++ [x]) :: rest else (k', xs) :: appendTo rest k x

/-- The two in-memory tables built by the read loop: `data` maps
`(version, baseline)` to the accumulated `(threads, time)` pairs and
`baselines` maps a baseline name to its single-thread time. -/
structure ReadState where
  data : List ((String × String) × List (Int × ℚ))
  baselines : List (String × ℚ)
deriving DecidableEq

/-- The loop body of the CSV read loop (lines 112–122): a `threads == 1` row
overwrites the baseline entry for its baseline name; any other row appends
its `(threads, time)` pair to the series for `(version, baseline)`. -/
def processRow (st : ReadState) (row : Row) : ReadState :=
  if row.threads = 1 then
    { st with baselines := insertA st.baselines row.baseline row.time_seconds }
  else
    { st with
      data := appendTo st.data (row.version, row.baseline) (row.threads, row.time_seconds) }

/-- The whole CSV read loop, starting from the two empty dicts. -/
def readCSV (rows : List Row) : ReadState :=
  rows.foldl processRow ⟨[], []⟩

/-- Python tuple comparison used by `data[key].sort()` on `(threads, time)`
pairs: lexicographic order, thread count first. -/
def lexLe (a b : Int × ℚ) : Prop :=
  a.1 < b.1 ∨ (a.1 = b.1 ∧ a.2 ≤ b.2)

instance : DecidableRel lexLe := fun a b => by
  unfold lexLe; infer_instance

instance : IsTotal (Int × ℚ) lexLe :=
  ⟨by
    intro a b
    rcases lt_trichotomy a.1 b.1 with h | h | h
    · exact Or.inl (Or.inl h)
    · rcases le_total a.2 b.2 with h2 | h2
      · exact Or.inl (Or.inr ⟨h, h2⟩)
      · exact Or.inr (Or.inr ⟨h.symm, h2⟩)
    · exact Or.inr (Or.inl h)⟩

instance : IsTrans (Int × ℚ) lexLe :=
  ⟨by
    intro a b c hab hbc
    rcases hab with h1 | ⟨e1, l1⟩ <;> rcases hbc with h2 | ⟨e2, l2⟩
    · exact Or.inl (h1.trans h2)
    · exact Or.inl (lt_of_lt_of_le h1 (le_of_eq e2))
    · exact Or.inl (lt_of_le_of_lt (le_of_eq e1) h2)
    · exact Or.inr ⟨e1.trans e2, l1.trans l2⟩⟩

/-- `data[key].sort()`: Python's sort on a list of `(threads, time)` tuples
produces the unique permutation sorted under lexicographic tuple order. -/
def sortPairs (l : List (Int × ℚ)) : List (Int × ℚ) :=
  List.insertionSort lexLe l

/-- The sorting pass (lines 124–125): every stored series is sorted in
place; `baselines` is untouched. -/
def sortSeries (st : ReadState) : ReadState :=
  { st with data := st.data.map (fun kv => (kv.1, sortPairs kv.2)) }

/-- The data plotted for one version inside `plot_group`: the thread counts,
the speedup values and the efficiency values of one line on the chart. -/
structure Series where
  version : String
  baseline : String
  threads : List Int
  speedups : List ℚ
  effs : List ℚ
deriving DecidableEq

/-- The per-version computation of `plot_group` (lines 153–156): from the
stored points, `threads` is the list of thread counts, `speedups` divides the
baseline time by each elapsed time, and `effs` divides each speedup by its
thread count (`zip(speedups, threads)`). -/
def mkSeries (base_time : ℚ) (version bl : String) (pts : List (Int × ℚ)) : Series :=
  { version := version
    baseline := bl
    threads := pts.map Prod.fst
    speedups := pts.map (fun p => base_time / p.2)
    effs := List.zipWith (fun (sp : ℚ) (t : Int) => sp / (t : ℚ))
      (pts.map (fun p => base_time / p.2)) (pts.map Prod.fst) }

/-- `plot_group` (lines 142–185), restricted to the data it draws: it first
dereferences `baselines[baseline_key]` (`none` = `KeyError`), then keeps, in
order, one `Series` per `(version, baseline)` pair that is present in `data`,
skipping absent keys. -/
def plot_group (st : ReadState) (versions_baseline : List (String × String))
    (baseline_key : String) : Option (List Series) :=
  (lookupA st.baselines baseline_key).map (fun base_time =>
    versions_baseline.filterMap (fun p =>
      (lookupA st.data p).map (fun pts => mkSeries base_time p.1 p.2 pts)))

/-- A file-system action of the script. -/
inductive Event where
  | readFile (path : String)
  | mkdir (path : String)
  | writeFile (path : String)
deriving DecidableEq

/-- Plot 1's version list (lines 190–192). -/
def group1 : List (String × String) :=
  [("version1_parallel_for", "ptr"), ("version2_sections", "ptr"),
   ("version3_combined", "ptr")]

/-- Plot 2's version list (lines 200–202). -/
def group2 : List (String × String) :=
  [("version1_optimized", "flat"), ("version2_optimized", "flat"),
   ("version3_optimized", "flat")]

/-- Plot 3's version list (lines 210–215). -/
def group3 : List (String × String) :=
  [("novel_simd_avx2", "novel"), ("novel_omp_simd", "novel"),
   ("novel_tiled", "novel"), ("novel_tasks", "novel"),
   ("novel_branchless", "novel"), ("novel_ultimate", "novel")]

/-- Plot 4's `(version, baseline, label)` list (lines 224–230). -/
def best_versions : List (String × String × String) :=
  [("version1_parallel_for", "ptr", "V1 original (int***)"),
   ("version1_optimized", "flat", "V1 optimized (flat)"),
   ("novel_simd_avx2", "novel", "SIMD AVX2"),
   ("novel_tiled", "novel", "Cache tiling + prefetch"),
   ("novel_ultimate", "novel", "Ultimate (SIMD + tiling)")]

/-- Outcome of a run: the file-system events in order, the contents of the
three `plot_group` charts, the content of the absolute-time chart (the
`(version, label, points)` lists it draws and the sequential reference time,
both empty/`none` when that plot is never reached), and the baseline key of
an uncaught `KeyError` when the run aborted. -/
structure RunResult where
  events : List Event
  charts : List (String × List Series)
  timeSeries : List (String × String × List (Int × ℚ))
  seqTime : Option ℚ
  err : Option String
deriving DecidableEq

/-- The whole script after CSV parsing: read the fixed-name CSV, build and
sort the tables, create `charts/`, draw the three `plot_group` charts and the
absolute-time chart in order.  Each `plot_group` call dereferences its
baseline key before saving its file, and plot 4 dereferences
`baselines["ptr"]` (line 259) before saving `charts/time_comparison.png`, so
a missing baseline aborts the run with no further files written. -/
def runScript (rows : List Row) : RunResult :=
  let st := sortSeries (readCSV rows)
  let ev0 := [Event.readFile "benchmark_results.csv", Event.mkdir "charts"]
  match plot_group st group1 "ptr" with
  | none => ⟨ev0, [], [], none, some "ptr"⟩
  | some c1 =>
    let ev1 := ev0 ++ [Event.writeFile "charts/speedup_original.png"]
    match plot_group st group2 "flat" with
    | none => ⟨ev1, [("charts/speedup_original.png", c1)], [], none, some "flat"⟩
    | some c2 =>
      let ev2 := ev1 ++ [Event.writeFile "charts/speedup_optimized.png"]
      match plot_group st group3 "flat" with
      | none =>
          ⟨ev2, [("charts/speedup_original.png", c1),
                 ("charts/speedup_optimized.png", c2)], [], none, some "flat"⟩
      | some c3 =>
        let ev3 := ev2 ++ [Event.writeFile "charts/speedup_novel.png"]
        let charts := [("charts/speedup_original.png", c1),
                       ("charts/speedup_optimized.png", c2),
                       ("charts/speedup_novel.png", c3)]
        match lookupA st.baselines "ptr" with
        | none => ⟨ev3, charts, [], none, some "ptr"⟩
        | some seq_time =>
            ⟨ev3 ++ [Event.writeFile "charts/time_comparison.png"], charts,
             best_versions.filterMap (fun q =>
               (lookupA st.data (q.1, q.2.1)).map (fun pts => (q.1, q.2.2, pts))),
             some seq_time,
             none⟩

/-! ### Association-list lemmas -/

theorem lookupA_insertA {α β : Type} [DecidableEq α] (l : List (α × β)) (k k' : α) (v : β) :
    lookupA (insertA l k v) k' = if k = k' then some v else lookupA l k' := by
  induction l with
  | nil => simp [insertA, lookupA]
  | cons hd tl ih =>
    obtain ⟨k0, v0⟩ := hd
    by_cases h : k0 = k
    · subst h
      by_cases h2 : k0 = k'
      · subst h2; simp [insertA, lookupA]
      · simp [insertA, lookupA, h2]
    · by_cases h2 : k0 = k'
      · subst h2
        have hk : k ≠ k0 := fun e => h e.symm
        simp [insertA, lookupA, h, hk]
      · simp [insertA, lookupA, h, h2, ih]

theorem lookupA_appendTo {α β : Type} [DecidableEq α] (l : List (α × List β)) (k k' : α) (x : β) :
    lookupA (appendTo l k x) k' =
      if k = k' then some ((lookupA l k).getD [] ++ [x]) else lookupA l k' := by
  induction l with
  | nil => simp [appendTo, lookupA]
  | cons hd tl ih =>
    obtain ⟨k0, xs⟩ := hd
    by_cases h : k0 = k
    · subst h
      by_cases h2 : k0 = k'
      · subst h2; simp [appendTo, lookupA]
      · simp [appendTo, lookupA, h2]
    · by_cases h2 : k0 = k'
      · subst h2
        have hk : k ≠ k0 := fun e => h e.symm
        simp [appendTo, lookupA, h, hk]
      · simp [appendTo, lookupA, h, h2, ih]

theorem lookupA_mapValues {α β γ : Type} [DecidableEq α] (f : β → γ) (l : List (α × β)) (k : α) :
    lookupA (l.map (fun kv => (kv.1, f kv.2))) k = (lookupA l k).map f := by
  induction l with
  | nil => simp [lookupA]
  | cons hd tl ih =>
    by_cases h : hd.1 = k <;> simp [lookupA, h, ih]

theorem sortSeries_baselines (st : ReadState) : (sortSeries st).baselines = st.baselines :=
  rfl

theorem lookupA_sortSeries_data (st : ReadState) (key : String × String) :
    lookupA (sortSeries st).data key = (lookupA st.data key).map sortPairs :=
  lookupA_mapValues sortPairs st.data key

/-! ### The read-loop dichotomy and the baseline table -/

/-- Claim C3: every CSV row is handled in exactly one of two ways.  A row
with thread count 1 overwrites the baseline entry for its baseline name and
leaves every series untouched; a row with any other thread count appends its
`(threads, time)` pair to the series for its `(version, baseline)` key and
leaves the baseline table untouched.  The two guards are mutually
exclusive. -/
theorem processRow_cases (st : ReadState) (row : Row) :
    (row.threads = 1 ∧
      (processRow st row).baselines = insertA st.baselines row.baseline row.time_seconds ∧
      (processRow st row).data = st.data)
    ∨ (row.threads ≠ 1 ∧
      (processRow st row).baselines = st.baselines ∧
      (processRow st row).data =
        appendTo st.data (row.version, row.baseline) (row.threads, row.time_seconds)) := by
  by_cases h : row.threads = 1
  · exact Or.inl ⟨h, by simp [processRow, h], by simp [processRow, h]⟩
  · exact Or.inr ⟨h, by simp [processRow, h], by simp [processRow, h]⟩

theorem processRow_cases_witness :
    ((Row.mk "v" 2 3 "b").threads = 1 ∧
      (processRow (ReadState.mk [] []) (Row.mk "v" 2 3 "b")).baselines =
        insertA (ReadState.mk [] []).baselines (Row.mk "v" 2 3 "b").baseline
          (Row.mk "v" 2 3 "b").time_seconds ∧
      (processRow (ReadState.mk [] []) (Row.mk "v" 2 3 "b")).data =
        (ReadState.mk [] []).data)
    ∨ ((Row.mk "v" 2 3 "b").threads ≠ 1 ∧
      (processRow (ReadState.mk [] []) (Row.mk "v" 2 3 "b")).baselines =
        (ReadState.mk [] []).baselines ∧
      (processRow (ReadState.mk [] []) (Row.mk "v" 2 3 "b")).data =
        appendTo (ReadState.mk [] []).data
          ((Row.mk "v" 2 3 "b").version, (Row.mk "v" 2 3 "b").baseline)
          ((Row.mk "v" 2 3 "b").threads, (Row.mk "v" 2 3 "b").time_seconds)) :=
  processRow_cases (ReadState.mk [] []) (Row.mk "v" 2 3 "b")

theorem baselines_foldl_mem (rows : List Row) :
    ∀ (st : ReadState) (name : String) (t : ℚ),
      lookupA (rows.foldl processRow st).baselines name = some t →
      (∃ r ∈ rows, r.threads = 1 ∧ r.baseline = name ∧ r.time_seconds = t) ∨
        lookupA st.baselines name = some t := by
  induction rows with
  | nil => intro st name t h; exact Or.inr h
  | cons r rest ih =>
    intro st name t h
    rcases ih (processRow st r) name t h with hmem | hst
    · obtain ⟨r', hr', hp⟩ := hmem
      exact Or.inl ⟨r', List.mem_cons_of_mem _ hr', hp⟩
    · by_cases h1 : r.threads = 1
      · have hb : (processRow st r).baselines =
            insertA st.baselines r.baseline r.time_seconds := by simp [processRow, h1]
        rw [hb, lookupA_insertA] at hst
        by_cases hn : r.baseline = name
        · rw [if_pos hn] at hst
          exact Or.inl ⟨r, List.mem_cons_self r rest, h1, hn, Option.some_inj.mp hst⟩
        · rw [if_neg hn] at hst
          exact Or.inr hst
      · have hb : (processRow st r).baselines = st.baselines := by simp [processRow, h1]
        rw [hb] at hst
        exact Or.inr hst

theorem baselines_foldl_isSome (rows : List Row) :
    ∀ (st : ReadState) (name : String),
      ((∃ r ∈ rows, r.threads = 1 ∧ r.baseline = name) ∨
        (lookupA st.baselines name).isSome = true) →
      (lookupA (rows.foldl processRow st).baselines name).isSome = true := by
  induction rows with
  | nil =>
    intro st name h
    rcases h with ⟨r, hr, _⟩ | h
    · exact absurd hr (List.not_mem_nil r)
    · exact h
  | cons r rest ih =>
    intro st name h
    apply ih (processRow st r) name
    rcases h with ⟨r', hr', h1', hn'⟩ | hs
    · rcases List.mem_cons.mp hr' with rfl | hmem
      · right
        have hb : (processRow st r').baselines =
            insertA st.baselines r'.baseline r'.time_seconds := by simp [processRow, h1']
        rw [hb, lookupA_insertA, if_pos hn']
        rfl
      · exact Or.inl ⟨r', hmem, h1', hn'⟩
    · right
      by_cases h1 : r.threads = 1
      · have hb : (processRow st r).baselines =
            insertA st.baselines r.baseline r.time_seconds := by simp [processRow, h1]
        rw [hb, lookupA_insertA]
        by_cases hn : r.baseline = name
        · rw [if_pos hn]; rfl
        · rw [if_neg hn]; exact hs
      · have hb : (processRow st r).baselines = st.baselines := by simp [processRow, h1]
        rw [hb]; exact hs

/-- Claim C5: after the read loop, the baseline table is sound and complete
for thread-count-1 rows.  Every stored entry `(name, t)` comes from some CSV
row with `threads = 1`, baseline `name` and elapsed time `t`; and every
baseline name that appears in some thread-count-1 row is present in the
table. -/
theorem readCSV_baselines_spec (rows : List Row) (name : String) :
    (∀ t : ℚ, lookupA (readCSV rows).baselines name = some t →
      ∃ r ∈ rows, r.threads = 1 ∧ r.baseline = name ∧ r.time_seconds = t)
    ∧ ((∃ r ∈ rows, r.threads = 1 ∧ r.baseline = name) →
      (lookupA (readCSV rows).baselines name).isSome = true) := by
  constructor
  · intro t h
    rcases baselines_foldl_mem rows ⟨[], []⟩ name t h with h' | h'
    · exact h'
    · simp [lookupA] at h'
  · intro hex
    exact baselines_foldl_isSome rows ⟨[], []⟩ name (Or.inl hex)

theorem readCSV_baselines_spec_witness :
    (∃ r ∈ [Row.mk "v" 1 7 "ptr"], r.threads = 1 ∧ r.baseline = "ptr" ∧ r.time_seconds = 7)
    ∧ (lookupA (readCSV [Row.mk "v" 1 7 "ptr"]).baselines "ptr").isSome = true :=
  ⟨(readCSV_baselines_spec [Row.mk "v" 1 7 "ptr"] "ptr").1 7 (by decide),
   (readCSV_baselines_spec [Row.mk "v" 1 7 "ptr"] "ptr").2
     ⟨Row.mk "v" 1 7 "ptr", by simp, rfl, rfl⟩⟩

/-! ### Sortedness of the series table -/

theorem sortPairs_sorted_fst (l : List (Int × ℚ)) :
    List.Sorted (fun a b : Int × ℚ => a.1 ≤ b.1) (sortPairs l) := by
  apply List.Pairwise.imp _ (List.sorted_insertionSort lexLe l)
  intro a b h
  rcases h with h | h
  · exact le_of_lt h
  · exact le_of_eq h.1

/-- Claim C4: after the sorting pass, every stored series is ordered by
thread count ascending (pairwise non-decreasing first components). -/
theorem sorted_series (rows : List Row) (key : String × String) (pts : List (Int × ℚ))
    (h : lookupA (sortSeries (readCSV rows)).data key = some pts) :
    List.Sorted (fun a b : Int × ℚ => a.1 ≤ b.1) pts := by
  rw [lookupA_sortSeries_data] at h
  obtain ⟨l0, _, hf⟩ := Option.map_eq_some'.mp h
  rw [← hf]
  exact sortPairs_sorted_fst l0

theorem sorted_series_witness :
    lookupA (sortSeries (readCSV [Row.mk "v" 4 3 "b", Row.mk "v" 2 5 "b"])).data ("v", "b") =
      some [((2 : Int), (5 : ℚ)), (4, 3)]
    ∧ List.Sorted (fun a b : Int × ℚ => a.1 ≤ b.1) [((2 : Int), (5 : ℚ)), (4, 3)] :=
  ⟨by decide, sorted_series [Row.mk "v" 4 3 "b", Row.mk "v" 2 5 "b"] ("v", "b") _ (by decide)⟩

/-! ### The metrics drawn by plot_group -/

theorem zipWith_map_same {α β γ δ : Type} (f : β → γ → δ) (g : α → β) (h : α → γ) :
    ∀ l : List α, List.zipWith f (l.map g) (l.map h) = l.map (fun x => f (g x) (h x))
  | [] => rfl
  | x :: xs => by simp [zipWith_map_same f g h xs]

/-- Claim C1: every series drawn by `plot_group` plots, for each stored
`(threads, time)` point of its `(version, baseline)` key, the speedup
`base_time / time` where `base_time` is the baseline table's entry for the
group's baseline key. -/
theorem plot_group_speedups (st : ReadState) (vb : List (String × String))
    (bk : String) (out : List Series) (h : plot_group st vb bk = some out)
    (s : Series) (hs : s ∈ out) :
    ∃ base_time pts,
      lookupA st.baselines bk = some base_time ∧
      lookupA st.data (s.version, s.baseline) = some pts ∧
      s.threads = pts.map Prod.fst ∧
      s.speedups = pts.map (fun p => base_time / p.2) := by
  obtain ⟨bt, hbt, hout⟩ := Option.map_eq_some'.mp h
  rw [← hout] at hs
  obtain ⟨p, hp, hps⟩ := List.mem_filterMap.mp hs
  obtain ⟨pts, hpts, hmk⟩ := Option.map_eq_some'.mp hps
  subst hmk
  exact ⟨bt, pts, hbt, by simpa [mkSeries] using hpts, by simp [mkSeries], by simp [mkSeries]⟩

theorem plot_group_speedups_witness :
    ∃ base_time pts,
      lookupA (ReadState.mk [(("v", "b"), [((2 : Int), (2 : ℚ))])] [("b", 8)]).baselines "b" =
        some base_time ∧
      lookupA (ReadState.mk [(("v", "b"), [((2 : Int), (2 : ℚ))])] [("b", 8)]).data
        ((Series.mk "v" "b" [2] [4] [2]).version, (Series.mk "v" "b" [2] [4] [2]).baseline) =
        some pts ∧
      (Series.mk "v" "b" [2] [4] [2]).threads = pts.map Prod.fst ∧
      (Series.mk "v" "b" [2] [4] [2]).speedups = pts.map (fun p => base_time / p.2) :=
  plot_group_speedups _ [("v", "b")] "b" [Series.mk "v" "b" [2] [4] [2]]
    (by simp [plot_group, lookupA, mkSeries]; norm_num)
    _ (List.mem_singleton.mpr rfl)

/-- Claim C2: every series drawn by `plot_group` plots, for each stored
point, the efficiency `speedup / threads`, i.e. each efficiency value is the
pointwise quotient of the speedup list by the thread-count list, which
equals `(base_time / time) / threads` at each stored point. -/
theorem plot_group_effs (st : ReadState) (vb : List (String × String))
    (bk : String) (out : List Series) (h : plot_group st vb bk = some out)
    (s : Series) (hs : s ∈ out) :
    ∃ base_time pts,
      lookupA st.baselines bk = some base_time ∧
      lookupA st.data (s.version, s.baseline) = some pts ∧
      s.effs = List.zipWith (fun (sp : ℚ) (t : Int) => sp / (t : ℚ)) s.speedups s.threads ∧
      s.effs = pts.map (fun p => (base_time / p.2) / (p.1 : ℚ)) := by
  obtain ⟨bt, hbt, hout⟩ := Option.map_eq_some'.mp h
  rw [← hout] at hs
  obtain ⟨p, hp, hps⟩ := List.mem_filterMap.mp hs
  obtain ⟨pts, hpts, hmk⟩ := Option.map_eq_some'.mp hps
  subst hmk
  refine ⟨bt, pts, hbt, by simpa [mkSeries] using hpts, rfl, ?_⟩
  simp only [mkSeries]
  exact zipWith_map_same _ _ _ pts

theorem plot_group_effs_witness :
    ∃ base_time pts,
      lookupA (ReadState.mk [(("v", "b"), [((2 : Int), (2 : ℚ))])] [("b", 8)]).baselines "b" =
        some base_time ∧
      lookupA (ReadState.mk [(("v", "b"), [((2 : Int), (2 : ℚ))])] [("b", 8)]).data
        ((Series.mk "v" "b" [2] [4] [2]).version, (Series.mk "v" "b" [2] [4] [2]).baseline) =
        some pts ∧
      (Series.mk "v" "b" [2] [4] [2]).effs =
        List.zipWith (fun (sp : ℚ) (t : Int) => sp / (t : ℚ))
          (Series.mk "v" "b" [2] [4] [2]).speedups (Series.mk "v" "b" [2] [4] [2]).threads ∧
      (Series.mk "v" "b" [2] [4] [2]).effs =
        pts.map (fun p => (base_time / p.2) / (p.1 : ℚ)) :=
  plot_group_effs _ [("v", "b")] "b" [Series.mk "v" "b" [2] [4] [2]]
    (by simp [plot_group, lookupA, mkSeries]; norm_num)
    _ (List.mem_singleton.mpr rfl)

/-- Claim C8: a `(version, baseline)` pair of a plot group that has no entry
in the series table contributes nothing to the chart: removing it from the
group leaves `plot_group`'s output unchanged, and the chart is still
produced (the call still returns a result rather than failing) as long as
the group's baseline key is present. -/
theorem plot_group_skips_missing (st : ReadState) (vb : List (String × String))
    (bk : String) (bt : ℚ) (v bl : String)
    (hb : lookupA st.baselines bk = some bt)
    (hm : lookupA st.data (v, bl) = none) :
    plot_group st ((v, bl) :: vb) bk = plot_group st vb bk ∧
    (plot_group st ((v, bl) :: vb) bk).isSome = true := by
  constructor
  · unfold plot_group
    rw [hb]
    simp [List.filterMap_cons, hm]
  · unfold plot_group
    rw [hb]
    rfl

theorem plot_group_skips_missing_witness :
    plot_group (ReadState.mk [] [("ptr", 5)]) [("a", "b")] "ptr" =
      plot_group (ReadState.mk [] [("ptr", 5)]) [] "ptr" ∧
    (plot_group (ReadState.mk [] [("ptr", 5)]) [("a", "b")] "ptr").isSome = true :=
  plot_group_skips_missing _ [] "ptr" 5 "a" "b" (by decide) (by decide)

/-! ### The script's file-system frame -/

/-- Claim C6: a run that completes (no `KeyError`) performs exactly these
file-system actions in order: read the fixed-name `benchmark_results.csv`,
create the `charts` directory, and write the four fixed-name chart images.
No other file is read or written. -/
theorem runScript_io_frame (rows : List Row) (h : (runScript rows).err = none) :
    (runScript rows).events =
      [Event.readFile "benchmark_results.csv", Event.mkdir "charts",
       Event.writeFile "charts/speedup_original.png",
       Event.writeFile "charts/speedup_optimized.png",
       Event.writeFile "charts/speedup_novel.png",
       Event.writeFile "charts/time_comparison.png"] := by
  rcases h1 : plot_group (sortSeries (readCSV rows)) group1 "ptr" with _ | c1
  · exfalso; simp [runScript, h1] at h
  · rcases h2 : plot_group (sortSeries (readCSV rows)) group2 "flat" with _ | c2
    · exfalso; simp [runScript, h1, h2] at h
    · rcases h3 : plot_group (sortSeries (readCSV rows)) group3 "flat" with _ | c3
      · exfalso; simp [runScript, h1, h2, h3] at h
      · rcases h4 : lookupA (sortSeries (readCSV rows)).baselines "ptr" with _ | q
        · exfalso; simp [runScript, h1, h2, h3, h4] at h
        · simp [runScript, h1, h2, h3, h4]

theorem runScript_io_frame_witness :
    (runScript [Row.mk "v" 1 2 "ptr", Row.mk "v" 1 2 "flat"]).err = none ∧
    (runScript [Row.mk "v" 1 2 "ptr", Row.mk "v" 1 2 "flat"]).events =
      [Event.readFile "benchmark_results.csv", Event.mkdir "charts",
       Event.writeFile "charts/speedup_original.png",
       Event.writeFile "charts/speedup_optimized.png",
       Event.writeFile "charts/speedup_novel.png",
       Event.writeFile "charts/time_comparison.png"] :=
  ⟨by decide, runScript_io_frame [Row.mk "v" 1 2 "ptr", Row.mk "v" 1 2 "flat"] (by decide)⟩

/-- Claim C10: a needed baseline that never occurs in a thread-count-1 row
aborts the run at its first dereference, before the affected chart is
written.  With no `"ptr"` baseline the run stops inside plot 1, writing no
chart at all; with `"ptr"` present but no `"flat"` baseline it stops inside
plot 2, having written only `charts/speedup_original.png`. -/
theorem missing_baseline_aborts (rows : List Row) :
    (lookupA (readCSV rows).baselines "ptr" = none →
      runScript rows =
        ⟨[Event.readFile "benchmark_results.csv", Event.mkdir "charts"],
         [], [], none, some "ptr"⟩)
    ∧ (∀ t : ℚ, lookupA (readCSV rows).baselines "ptr" = some t →
        lookupA (readCSV rows).baselines "flat" = none →
        (runScript rows).events =
          [Event.readFile "benchmark_results.csv", Event.mkdir "charts",
           Event.writeFile "charts/speedup_original.png"] ∧
        (runScript rows).err = some "flat") := by
  constructor
  · intro h
    have h1 : plot_group (sortSeries (readCSV rows)) group1 "ptr" = none := by
      unfold plot_group
      rw [sortSeries_baselines, h]
      rfl
    simp [runScript, h1]
  · intro t hp hf
    have h1 : plot_group (sortSeries (readCSV rows)) group1 "ptr" =
        some (group1.filterMap (fun p =>
          (lookupA (sortSeries (readCSV rows)).data p).map
            (fun pts => mkSeries t p.1 p.2 pts))) := by
      unfold plot_group
      rw [sortSeries_baselines, hp]
      rfl
    have h2 : plot_group (sortSeries (readCSV rows)) group2 "flat" = none := by
      unfold plot_group
      rw [sortSeries_baselines, hf]
      rfl
    constructor <;> simp [runScript, h1, h2]

theorem missing_baseline_aborts_witness :
    (runScript [Row.mk "v" 1 2 "ptr"]).events =
      [Event.readFile "benchmark_results.csv", Event.mkdir "charts",
       Event.writeFile "charts/speedup_original.png"] ∧
    (runScript [Row.mk "v" 1 2 "ptr"]).err = some "flat" :=
  (missing_baseline_aborts [Row.mk "v" 1 2 "ptr"]).2 2 (by decide) (by decide)

/-! ### The version field of single-thread rows is dead -/

/-- Two CSV row lists of equal length whose rows agree on thread count,
elapsed time and baseline name, and agree on the version field whenever the
thread count is not 1 (so they may differ arbitrarily in the version field
of thread-count-1 rows). -/
def SameButBaselineVersion : List Row → List Row → Prop
  | [], [] => True
  | a :: as, b :: bs =>
      (a.threads = b.threads ∧ a.time_seconds = b.time_seconds ∧ a.baseline = b.baseline ∧
        (a.threads ≠ 1 → a.version = b.version)) ∧ SameButBaselineVersion as bs
  | _, _ => False

/-- Claim C9: the version field of a thread-count-1 row has no effect.  Two
CSV inputs that differ only in the version field of rows with thread count 1
produce identical baseline and series tables, and the whole run (every chart
drawn, every speedup and efficiency value, the event trace) is identical. -/
theorem version_of_baseline_rows_irrelevant (rs1 rs2 : List Row)
    (h : SameButBaselineVersion rs1 rs2) :
    readCSV rs1 = readCSV rs2 ∧ runScript rs1 = runScript rs2 := by
  have key : ∀ rs1 rs2, SameButBaselineVersion rs1 rs2 →
      ∀ st : ReadState, rs1.foldl processRow st = rs2.foldl processRow st := by
    intro rs1
    induction rs1 with
    | nil =>
      intro rs2 h st
      cases rs2 with
      | nil => rfl
      | cons b bs => simp [SameButBaselineVersion] at h
    | cons a as ih =>
      intro rs2 h st
      cases rs2 with
      | nil => simp [SameButBaselineVersion] at h
      | cons b bs =>
        simp only [SameButBaselineVersion] at h
        obtain ⟨⟨ht, htime, hb, hv⟩, hrest⟩ := h
        have hstep : processRow st a = processRow st b := by
          by_cases h1 : a.threads = 1
          · have h1' : b.threads = 1 := ht ▸ h1
            simp [processRow, h1, h1', hb, htime]
          · have h1' : ¬ b.threads = 1 := ht ▸ h1
            have hv' := hv h1
            simp [processRow, h1, h1', hb, htime, hv', ht]
        simp only [List.foldl_cons]
        rw [hstep]
        exact ih bs hrest (processRow st b)
  have he : readCSV rs1 = readCSV rs2 := key rs1 rs2 h ⟨[], []⟩
  refine ⟨he, ?_⟩
  unfold runScript
  rw [he]

theorem version_of_baseline_rows_irrelevant_witness :
    readCSV [Row.mk "x" 1 2 "ptr"] = readCSV [Row.mk "y" 1 2 "ptr"] ∧
    runScript [Row.mk "x" 1 2 "ptr"] = runScript [Row.mk "y" 1 2 "ptr"] :=
  version_of_baseline_rows_irrelevant [Row.mk "x" 1 2 "ptr"] [Row.mk "y" 1 2 "ptr"]
    ⟨⟨rfl, rfl, rfl, fun hc => absurd rfl hc⟩, trivial⟩

/-! ### Declarative characterisation of the two tables -/

/-- First-biased choice on options (used to state the table invariants). -/
def orO {α : Type} : Option α → Option α → Option α
  | some a, _ => some a
  | none, b => b

theorem orO_map {α β : Type} (f : α → β) (x y : Option α) :
    (orO x y).map f = orO (x.map f) (y.map f) := by
  cases x <;> simp [orO]

theorem find?_appendO {α : Type} (p : α → Bool) :
    ∀ l1 l2 : List α, List.find? p (l1 ++ l2) = orO (List.find? p l1) (List.find? p l2) := by
  intro l1
  induction l1 with
  | nil => intro l2; simp [orO]
  | cons a as ih =>
    intro l2
    cases hp : p a <;> simp [List.find?, hp, orO, ih]

/-- The `(threads, time)` pairs contributed to the series of `key` by `rows`:
the rows with that `(version, baseline)` key and thread count other than 1,
in CSV order. -/
def seriesPts (rows : List Row) (key : String × String) : List (Int × ℚ) :=
  (rows.filter (fun r => r.threads != 1 && r.version == key.1 && r.baseline == key.2)).map
    (fun r => (r.threads, r.time_seconds))

theorem baselines_foldl_find (rows : List Row) :
    ∀ (st : ReadState) (name : String),
      lookupA (rows.foldl processRow st).baselines name =
        orO ((rows.reverse.find? (fun r => r.threads == 1 && r.baseline == name)).map
          Row.time_seconds) (lookupA st.baselines name) := by
  induction rows with
  | nil => intro st name; simp [orO]
  | cons r rest ih =>
    intro st name
    simp only [List.foldl_cons, List.reverse_cons]
    rw [ih (processRow st r) name, find?_appendO, orO_map]
    cases hx : rest.reverse.find? (fun r => r.threads == 1 && r.baseline == name) with
    | some v => simp [orO]
    | none =>
      simp only [hx, Option.map_none', orO]
      by_cases h1 : r.threads = 1
      · by_cases hn : r.baseline = name
        · have hb : (processRow st r).baselines =
              insertA st.baselines r.baseline r.time_seconds := by simp [processRow, h1]
          rw [hb, lookupA_insertA, if_pos hn]
          simp [List.find?, h1, hn, orO]
        · have hb : (processRow st r).baselines =
              insertA st.baselines r.baseline r.time_seconds := by simp [processRow, h1]
          have hnb : (r.baseline == name) = false := beq_eq_false_iff_ne.mpr hn
          rw [hb, lookupA_insertA, if_neg hn]
          simp [List.find?, h1, hnb, orO]
      · have hb : (processRow st r).baselines = st.baselines := by simp [processRow, h1]
        have h1b : (r.threads == 1) = false := beq_eq_false_iff_ne.mpr h1
        rw [hb]
        simp [List.find?, h1b, orO]

theorem data_foldl (rows : List Row) :
    ∀ (st : ReadState) (key : String × String),
      lookupA (rows.foldl processRow st).data key =
        if lookupA st.data key = none ∧ seriesPts rows key = [] then none
        else some ((lookupA st.data key).getD [] ++ seriesPts rows key) := by
  induction rows with
  | nil =>
    intro st key
    cases hx : lookupA st.data key with
    | none => simp [seriesPts, hx]
    | some l => simp [seriesPts, hx]
  | cons r rest ih =>
    intro st key
    simp only [List.foldl_cons]
    rw [ih (processRow st r) key]
    by_cases h1 : r.threads = 1
    · have hd : (processRow st r).data = st.data := by simp [processRow, h1]
      have hfil : seriesPts (r :: rest) key = seriesPts rest key := by
        simp [seriesPts, List.filter_cons, h1]
      rw [hd, hfil]
    · by_cases hk : (r.version, r.baseline) = key
      · subst hk
        have hd : (processRow st r).data =
            appendTo st.data (r.version, r.baseline) (r.threads, r.time_seconds) := by
          simp [processRow, h1]
        have hfil : seriesPts (r :: rest) (r.version, r.baseline) =
            (r.threads, r.time_seconds) :: seriesPts rest (r.version, r.baseline) := by
          simp [seriesPts, List.filter_cons, h1]
        rw [hd, hfil, lookupA_appendTo, if_pos rfl]
        simp [List.append_assoc]
      · have hd : lookupA (processRow st r).data key = lookupA st.data key := by
          have hdd : (processRow st r).data =
              appendTo st.data (r.version, r.baseline) (r.threads, r.time_seconds) := by
            simp [processRow, h1]
          rw [hdd, lookupA_appendTo, if_neg hk]
        have hfil : seriesPts (r :: rest) key = seriesPts rest key := by
          by_cases hv : r.version = key.1
          · by_cases hbl : r.baseline = key.2
            · exact absurd (by rw [hv, hbl]) hk
            · simp [seriesPts, List.filter_cons, hbl]
          · simp [seriesPts, List.filter_cons, hv]
        rw [hd, hfil]

/-! ### The plainer script variant (modelled from the spec) -/

/-- Modelled from the spec: the repository's second, plainer variant of the
plotting script is not included under `src/`.  The spec describes the two
files as "near-duplicate versions of the same script ... with identical
logic: parse CSV rows into an in-memory table keyed by (version, baseline),
compute derived metrics, and call a plotting library to produce PNG files".
Its baseline table is modelled declaratively: the single-thread time recorded
for a baseline name is that of the last CSV row with thread count 1 and that
name. -/
def plainBaseline (rows : List Row) (name : String) : Option ℚ :=
  (rows.reverse.find? (fun r => r.threads == 1 && r.baseline == name)).map Row.time_seconds

/-- Modelled from the spec (plainer variant, continued): the series stored
for a `(version, baseline)` key is the list of `(threads, time)` pairs of
the rows with that key and thread count other than 1, sorted by thread
count; a key with no such rows has no series. -/
def plainSeries (rows : List Row) (key : String × String) : Option (List (Int × ℚ)) :=
  if seriesPts rows key = [] then none else some (sortPairs (seriesPts rows key))

/-- Modelled from the spec (plainer variant, continued): the same derived
metrics are computed per group, reading the tables through `plainBaseline`
and `plainSeries`. -/
def plain_plot_group (rows : List Row) (versions_baseline : List (String × String))
    (baseline_key : String) : Option (List Series) :=
  (plainBaseline rows baseline_key).map (fun base_time =>
    versions_baseline.filterMap (fun p =>
      (plainSeries rows p).map (fun pts => mkSeries base_time p.1 p.2 pts)))

/-- Modelled from the spec (plainer variant, continued): the plainer variant
reads the same CSV, draws the same four groups and writes the same four PNG
files in the same order. -/
def plain_runScript (rows : List Row) : RunResult :=
  let ev0 := [Event.readFile "benchmark_results.csv", Event.mkdir "charts"]
  match plain_plot_group rows group1 "ptr" with
  | none => ⟨ev0, [], [], none, some "ptr"⟩
  | some c1 =>
    let ev1 := ev0 ++ [Event.writeFile "charts/speedup_original.png"]
    match plain_plot_group rows group2 "flat" with
    | none => ⟨ev1, [("charts/speedup_original.png", c1)], [], none, some "flat"⟩
    | some c2 =>
      let ev2 := ev1 ++ [Event.writeFile "charts/speedup_optimized.png"]
      match plain_plot_group rows group3 "flat" with
      | none =>
          ⟨ev2, [("charts/speedup_original.png", c1),
                 ("charts/speedup_optimized.png", c2)], [], none, some "flat"⟩
      | some c3 =>
        let ev3 := ev2 ++ [Event.writeFile "charts/speedup_novel.png"]
        let charts := [("charts/speedup_original.png", c1),
                       ("charts/speedup_optimized.png", c2),
                       ("charts/speedup_novel.png", c3)]
        match plainBaseline rows "ptr" with
        | none => ⟨ev3, charts, [], none, some "ptr"⟩
        | some seq_time =>
            ⟨ev3 ++ [Event.writeFile "charts/time_comparison.png"], charts,
             best_versions.filterMap (fun q =>
               (plainSeries rows (q.1, q.2.1)).map (fun pts => (q.1, q.2.2, pts))),
             some seq_time,
             none⟩

theorem baseline_table_eq (rows : List Row) (name : String) :
    lookupA (readCSV rows).baselines name = plainBaseline rows name := by
  have h := baselines_foldl_find rows ⟨[], []⟩ name
  rw [show lookupA (ReadState.mk [] []).baselines name = none from rfl] at h
  rw [readCSV] at *
  rw [h]
  cases hx : (rows.reverse.find? (fun r => r.threads == 1 && r.baseline == name)) <;>
    simp [orO, plainBaseline, hx]

theorem data_table_eq (rows : List Row) (key : String × String) :
    lookupA (sortSeries (readCSV rows)).data key = plainSeries rows key := by
  rw [lookupA_sortSeries_data]
  have h := data_foldl rows ⟨[], []⟩ key
  rw [show lookupA (ReadState.mk [] []).data key = none from rfl] at h
  rw [readCSV] at *
  rw [h]
  by_cases he : seriesPts rows key = []
  · simp [plainSeries, he]
  · simp [plainSeries, he]

/-- Claim C7: the polished variant under `src/` and the plainer variant
(modelled from the spec) are behaviorally equivalent: on every CSV input the
two runs produce the same tables, the same metric series on every chart, the
same file-system trace and the same error outcome. -/
theorem plain_variant_equivalent (rows : List Row) :
    runScript rows = plain_runScript rows := by
  have hb : ∀ name, lookupA (sortSeries (readCSV rows)).baselines name =
      plainBaseline rows name := by
    intro name
    rw [sortSeries_baselines]
    exact baseline_table_eq rows name
  have hg : ∀ (vb : List (String × String)) (bk : String),
      plot_group (sortSeries (readCSV rows)) vb bk = plain_plot_group rows vb bk := by
    intro vb bk
    unfold plot_group plain_plot_group
    rw [hb bk]
    simp only [data_table_eq rows]
  unfold runScript plain_runScript
  simp only [hg, hb, data_table_eq rows]

end PlotBenchmarks
